import Mathlib

/-!
Formal model of the skout scan-orchestration and aggregation pipeline.

The definitions below are a shallow embedding of the Go sources:
`main.go` (the current revision) and an earlier revision of the same file.
Go structs become Lean structures (fields the code never reads are
omitted), the per-result classification switch becomes a function on
`Option Severity`, the accumulation loops become folds with explicit
state, and every process-terminating failure path (`log.Fatal`, the
out-of-range indexing of `report.Runs[0]`) is embedded as `Option.none`.
Counters are `Nat`: in the source they are Go `int`s that start at `0`
and are only ever incremented by `1`.
-/

namespace Skout

/-- The five severity buckets named by the report format: the four
counted by `main.go` plus `UNSPECIFIED`, which only the earlier
revision's catalog switch recognises. -/
inductive Severity
  | critical
  | high
  | medium
  | low
  | unspecified
  deriving DecidableEq, Repr

/-- Go struct `Vulnerabilities` of `main.go`: the four per-container
severity counters.  There is no `Unspecified` field in the source. -/
structure Vulnerabilities where
  critical : Nat
  high : Nat
  medium : Nat
  low : Nat
  deriving DecidableEq, Repr

/-- The all-zero counters a container starts from. -/
def zeroV : Vulnerabilities := ⟨0, 0, 0, 0⟩

/-- Component-wise sum of two counter records. -/
def addV (a b : Vulnerabilities) : Vulnerabilities :=
  ⟨a.critical + b.critical, a.high + b.high, a.medium + b.medium, a.low + b.low⟩

/-- Component-wise sum of a list of counter records. -/
def sumV (l : List Vulnerabilities) : Vulnerabilities :=
  l.foldr addV zeroV

/-- Total number of findings counted in a `Vulnerabilities` record, as
computed for the table footer of `main.go`. -/
def totalV (v : Vulnerabilities) : Nat :=
  v.critical + v.high + v.medium + v.low

/-- The `properties` object of a rule-catalog entry.  Only `cvssV3_severity` is ever
read by the source; `affected_version`, `fixed_version` and `tags` are
omitted. -/
structure RuleProps where
  cvssV3Severity : String
  deriving DecidableEq, Repr

/-- One entry of `tool.driver.rules`.  Only `id` and
`properties.cvssV3_severity` are read by the source. -/
structure Rule where
  id : String
  properties : RuleProps
  deriving DecidableEq, Repr

/-- The `message` object of a raw result. -/
structure Message where
  text : String
  deriving DecidableEq, Repr

/-- One raw result of the report.  Only `ruleId` and `message.text` are
read by the source. -/
structure Result where
  ruleId : String
  message : Message
  deriving DecidableEq, Repr

/-- The `tool.driver` object of a run: carries the rule catalog. -/
structure Driver where
  rules : List Rule
  deriving DecidableEq, Repr

/-- The `tool` object of a run. -/
structure Tool where
  driver : Driver
  deriving DecidableEq, Repr

/-- One entry of the report's `runs` list. -/
structure Run where
  tool : Tool
  results : List Result
  deriving DecidableEq, Repr

/-- Go struct `SarifReport`: the decoded report.  `version` and
`$schema` are decoded but never read. -/
structure SarifReport where
  version : String
  schema : String
  runs : List Run
  deriving DecidableEq, Repr

/-- Whether the first list starts with the second (character-by-character). -/
def startsWithL : List Char → List Char → Bool
  | _, [] => true
  | [], _ :: _ => false
  | c :: s, d :: t => c == d && startsWithL s t

/-- Substring containment on character lists: some suffix of `s` starts
with `t`.  This is the semantics of Go `strings.Contains`. -/
def containsSubL : List Char → List Char → Bool
  | [], t => startsWithL [] t
  | c :: s, t => startsWithL (c :: s) t || containsSubL s t

/-- Go `strings.Contains s t`. -/
def containsSub (s t : String) : Bool :=
  containsSubL s.toList t.toList

/-- The per-result switch of `main.go` (lines 210-224): the message text
is tested for the four colon-delimited tokens in the fixed order
LOW, MEDIUM, HIGH, CRITICAL and the first test that succeeds names the
bucket; a message matching no token falls through the switch and is
assigned no bucket (`none`). -/
def classifyMessage (text : String) : Option Severity :=
  if containsSub text ": LOW" then some Severity.low
  else if containsSub text ": MEDIUM" then some Severity.medium
  else if containsSub text ": HIGH" then some Severity.high
  else if containsSub text ": CRITICAL" then some Severity.critical
  else none

/-- Increment the bucket named by a classification outcome.  `none`
(no token matched) increments nothing, mirroring the switch falling
through; `unspecified` also increments nothing because the
`Vulnerabilities` struct of `main.go` has no such field (and
`classifyMessage` never produces it). -/
def bump (v : Vulnerabilities) : Option Severity → Vulnerabilities
  | some Severity.low => { v with low := v.low + 1 }
  | some Severity.medium => { v with medium := v.medium + 1 }
  | some Severity.high => { v with high := v.high + 1 }
  | some Severity.critical => { v with critical := v.critical + 1 }
  | some Severity.unspecified => v
  | none => v

/-- One iteration of the `for _, result := range report.Runs[0].Results`
loop, acting on a single counter record. -/
def tallyStep (v : Vulnerabilities) (r : Result) : Vulnerabilities :=
  bump v (classifyMessage r.message.text)

/-- The whole classification loop of `main.go` for one container,
starting from the zero counters. -/
def tallyResults (rs : List Result) : Vulnerabilities :=
  rs.foldl tallyStep zeroV

/-- Parsing plus classification for one container in `main.go`: the loop
ranges over `report.Runs[0].Results`, so a report whose `runs` list is
empty makes the task fail with an out-of-range index (embedded as
`none`); otherwise only the first run is consulted. -/
def classifyReport (rep : SarifReport) : Option Vulnerabilities :=
  match rep.runs with
  | [] => none
  | r0 :: _ => some (tallyResults r0.results)

/-- The inner rule-catalog scan of the earlier revision: linear search
for the first entry whose `id` equals the result's `ruleId` (the Go loop
breaks at the first match). -/
def lookupRule : List Rule → String → Option Rule
  | [], _ => none
  | r :: rs, rid => if r.id == rid then some r else lookupRule rs rid

/-- The per-result classification of the earlier revision
(part_000 lines 110-131): only the catalog entry matching the result's
`ruleId` is consulted; its `cvssV3_severity` string selects the bucket,
any other string (and a result with no matching entry) selects no
bucket.  The message text is never read. -/
def classifyCatalog (rules : List Rule) (r : Result) : Option Severity :=
  match lookupRule rules r.ruleId with
  | none => none
  | some rule =>
    match rule.properties.cvssV3Severity with
    | "UNSPECIFIED" => some Severity.unspecified
    | "LOW" => some Severity.low
    | "MEDIUM" => some Severity.medium
    | "HIGH" => some Severity.high
    | "CRITICAL" => some Severity.critical
    | _ => none

/-- Modelled from the spec: the severity keyword of a rule-catalog
entry, "a severity property taking one of {CRITICAL, HIGH, MEDIUM, LOW,
UNSPECIFIED}"; any other string resolves to Unspecified, the spec's
catch-all for unresolvable severities. -/
def sevOfKeyword : String → Severity
  | "LOW" => Severity.low
  | "MEDIUM" => Severity.medium
  | "HIGH" => Severity.high
  | "CRITICAL" => Severity.critical
  | _ => Severity.unspecified

/-- Modelled from the spec (§4.3): the claimed two-stage resolution.
"A result whose rule-catalog entry matches by identifier takes
precedence when both sources are present; message-text scanning is the
fallback path"; a result neither path resolves "is classified
Unspecified rather than dropped". -/
def specResolve (rules : List Rule) (r : Result) : Severity :=
  match lookupRule rules r.ruleId with
  | some rule => sevOfKeyword rule.properties.cvssV3Severity
  | none =>
    match classifyMessage r.message.text with
    | some sev => sev
    | none => Severity.unspecified

/-- The simultaneous increment performed by one arm of the switch in
`main.go`: the same case body bumps both the container's own record
(`item.Pod.Containers[i].Vulnerabilities`) and the fleet-wide counters
(`lowVuln`, `mediumVuln`, `highVuln`, `criticalVuln`). -/
def stepBoth (p : Vulnerabilities × Vulnerabilities) (r : Result) :
    Vulnerabilities × Vulnerabilities :=
  match classifyMessage r.message.text with
  | some Severity.low =>
    ({ p.1 with low := p.1.low + 1 }, { p.2 with low := p.2.low + 1 })
  | some Severity.medium =>
    ({ p.1 with medium := p.1.medium + 1 }, { p.2 with medium := p.2.medium + 1 })
  | some Severity.high =>
    ({ p.1 with high := p.1.high + 1 }, { p.2 with high := p.2.high + 1 })
  | some Severity.critical =>
    ({ p.1 with critical := p.1.critical + 1 }, { p.2 with critical := p.2.critical + 1 })
  | some Severity.unspecified => p
  | none => p

/-- One container's classification loop acting on (fresh container
counters, current fleet counters). -/
def tallyBoth (fleet : Vulnerabilities) (rs : List Result) :
    Vulnerabilities × Vulnerabilities :=
  rs.foldl stepBoth (zeroV, fleet)

/-- What one scan task observes of its external collaborators: the
scanner invocation may fail (`cmd.Run` error), the report file may be
unreadable (`os.ReadFile` error), the blob may be undecodable
(`json.Unmarshal` error), or a report is decoded. -/
inductive ScanOutcome
  | scanError
  | readError
  | decodeError
  | ok (rep : SarifReport)
  deriving DecidableEq, Repr

/-- Whether the task hit one of the three collaborator failures named by
the dispatcher contract (each is a `log.Fatal` in the source). -/
def isErrOutcome : ScanOutcome → Bool
  | ScanOutcome.ok _ => false
  | _ => true

/-- The run over all scan tasks, with the fleet counters threaded
through as explicit state.  In the source each `log.Fatal` (scan, read
or decode failure) and the `Runs[0]` panic on an empty `runs` list
terminate the process before the summary is rendered: all are embedded
as `none`.  On success the per-container records are collected together
with the final fleet counters.  This fold serializes the goroutines and
makes each paired increment atomic, which the source's unsynchronized
fleet counters do not guarantee: it is therefore used only for
properties that are insensitive to the interleaving of the shared
counter accesses (failure propagation and the shape of the summary);
the racy fleet totals themselves are modelled separately below
(`AggState` and `RaceState`). -/
def runTasks : Vulnerabilities → List ScanOutcome →
    Option (List Vulnerabilities × Vulnerabilities)
  | fleet, [] => some ([], fleet)
  | _, ScanOutcome.scanError :: _ => none
  | _, ScanOutcome.readError :: _ => none
  | _, ScanOutcome.decodeError :: _ => none
  | fleet, ScanOutcome.ok rep :: ts =>
    match rep.runs with
    | [] => none
    | r0 :: _ =>
      match tallyBoth fleet r0.results with
      | (c, fleet2) =>
        match runTasks fleet2 ts with
        | none => none
        | some (cs, ff) => some (c :: cs, ff)

/-- The rendered summary: every container's counters plus the fleet-wide
counters of the table footer.  Pod and namespace labels are carried
along by the source purely for display and are omitted here. -/
structure FleetSummary where
  containers : List Vulnerabilities
  fleet : Vulnerabilities
  deriving DecidableEq, Repr

/-- A whole run of `main.go`: all tasks from zero fleet counters;
a summary exists only when every task completed. -/
def runFleet (ts : List ScanOutcome) : Option FleetSummary :=
  match runTasks zeroV ts with
  | none => none
  | some (cs, fleet) => some ⟨cs, fleet⟩

/-- The image-deduplication loop (main.go lines 114-124): a `seen` set
(the Go map keys) and the first-seen insertion order, which is the order
the images are logged in. -/
def dedupeGo (seen : List String) : List String → List String
  | [] => []
  | x :: xs => if x ∈ seen then dedupeGo seen xs else x :: dedupeGo (x :: seen) xs

/-- Deduplication of the raw image inventory. -/
def dedupe (xs : List String) : List String :=
  dedupeGo [] xs

/-- Character class of the regex `[^a-zA-Z-0-9]+` of main.go line 190:
ASCII letters, digits, and the literal hyphen. -/
def isAllowed (c : Char) : Bool :=
  (Nat.ble 97 c.toNat && Nat.ble c.toNat 122) ||
  (Nat.ble 65 c.toNat && Nat.ble c.toNat 90) ||
  (Nat.ble 48 c.toNat && Nat.ble c.toNat 57) ||
  c == '-'

/-- Go `ReplaceAllString` for the pattern `[^a-zA-Z-0-9]+` with
replacement `_`: every maximal run of disallowed characters collapses
to a single underscore.  The flag records whether the previous character
belonged to such a run. -/
def sanitizeAux : Bool → List Char → List Char
  | _, [] => []
  | prevRun, c :: s =>
    if isAllowed c then c :: sanitizeAux false s
    else if prevRun then sanitizeAux true s
    else '_' :: sanitizeAux true s

/-- The sanitised image reference. -/
def sanitize (s : String) : String :=
  String.mk (sanitizeAux false s.toList)

/-- The intermediate report filename derived from an image reference
(main.go line 190). -/
def reportFilename (image : String) : String :=
  sanitize image ++ ".sarif.json"

/-- A memory access of one task to a shared fleet counter.  A Go
`counter += 1` statement is a read of the shared variable followed by a
write of the read value plus one; the source performs it from several
goroutines with no mutex. -/
inductive Act
  | rd
  | wr
  deriving DecidableEq, Repr

/-- Two tasks (identified by `Bool`), one shared counter, and one
register per task holding the value it last read. -/
structure RaceState where
  shared : Nat
  reg1 : Nat
  reg2 : Nat
  deriving DecidableEq, Repr

/-- Effect of one scheduled access: a read copies the shared counter
into the acting task's register, a write stores that register plus one
back into the shared counter. -/
def raceStep (s : RaceState) (e : Bool × Act) : RaceState :=
  match e with
  | (false, Act.rd) => { s with reg1 := s.shared }
  | (false, Act.wr) => { s with shared := s.reg1 + 1 }
  | (true, Act.rd) => { s with reg2 := s.shared }
  | (true, Act.wr) => { s with shared := s.reg2 + 1 }

/-- Execute a schedule (an interleaving of the two tasks' accesses)
from the initial state. -/
def execSched (sched : List (Bool × Act)) : RaceState :=
  sched.foldl raceStep ⟨0, 0, 0⟩

/-- The access sequence of one task that classifies exactly one LOW
finding: read the shared low counter, then write it back incremented. -/
def taskProgram : List Act := [Act.rd, Act.wr]

/-- The accesses a schedule assigns to task `t`, in order. -/
def projTask (sched : List (Bool × Act)) (t : Bool) : List Act :=
  (sched.filter (fun e => e.1 == t)).map Prod.snd

/-- The sequential schedule: task `false` runs to completion, then task
`true`. -/
def seqSched : List (Bool × Act) :=
  [(false, Act.rd), (false, Act.wr), (true, Act.rd), (true, Act.wr)]

/-- A racy schedule: both tasks read the counter before either writes,
so one increment is lost. -/
def racySched : List (Bool × Act) :=
  [(false, Act.rd), (true, Act.rd), (false, Act.wr), (true, Act.wr)]

/-- One memory access in the aggregation of one LOW finding by one of
two scan tasks.  `bumpC` is the increment of the task's own container
record (`item.Pod.Containers[i].Vulnerabilities.Low += 1`, which no
other task touches); `rd` and `wr` are the read and write halves of the
unsynchronized shared `lowVuln += 1` of the same switch arm. -/
inductive AggAct
  | bumpC
  | rd
  | wr
  deriving DecidableEq, Repr

/-- The aggregation state seen by two tasks: each task's own container
counter (read again when the table is rendered), the shared fleet
counter, and each task's register holding its last read. -/
structure AggState where
  cont1 : Nat
  cont2 : Nat
  fleet : Nat
  reg1 : Nat
  reg2 : Nat
  deriving DecidableEq, Repr

/-- Effect of one scheduled access of the aggregation model. -/
def aggStep (s : AggState) (e : Bool × AggAct) : AggState :=
  match e with
  | (false, AggAct.bumpC) => { s with cont1 := s.cont1 + 1 }
  | (false, AggAct.rd) => { s with reg1 := s.fleet }
  | (false, AggAct.wr) => { s with fleet := s.reg1 + 1 }
  | (true, AggAct.bumpC) => { s with cont2 := s.cont2 + 1 }
  | (true, AggAct.rd) => { s with reg2 := s.fleet }
  | (true, AggAct.wr) => { s with fleet := s.reg2 + 1 }

/-- Execute a schedule of aggregation accesses from the initial state. -/
def execAgg (sched : List (Bool × AggAct)) : AggState :=
  sched.foldl aggStep ⟨0, 0, 0, 0, 0⟩

/-- The access sequence of one task whose report holds exactly one LOW
finding: the switch arm bumps the task's own container record, then
reads and writes the shared fleet counter. -/
def aggProgram : List AggAct := [AggAct.bumpC, AggAct.rd, AggAct.wr]

/-- The aggregation accesses a schedule assigns to task `t`, in order. -/
def projAgg (sched : List (Bool × AggAct)) (t : Bool) : List AggAct :=
  (sched.filter (fun e => e.1 == t)).map Prod.snd

/-- The sequential aggregation schedule: task `false` completes before
task `true` starts. -/
def seqAggSched : List (Bool × AggAct) :=
  [(false, AggAct.bumpC), (false, AggAct.rd), (false, AggAct.wr),
   (true, AggAct.bumpC), (true, AggAct.rd), (true, AggAct.wr)]

/-- A racy aggregation schedule: both tasks bump their own container
records, then both read the shared fleet counter before either writes
it back. -/
def racyAggSched : List (Bool × AggAct) :=
  [(false, AggAct.bumpC), (true, AggAct.bumpC),
   (false, AggAct.rd), (true, AggAct.rd),
   (false, AggAct.wr), (true, AggAct.wr)]

/-- Number of results of a list that the message switch of `main.go`
sends to the bucket `sev`. -/
def countSev (sev : Severity) (rs : List Result) : Nat :=
  (rs.filter (fun r => classifyMessage r.message.text == some sev)).length

/-! ### Counter algebra -/

theorem addV_zero (a : Vulnerabilities) : addV a zeroV = a := by
  cases a
  simp [addV, zeroV]

theorem zero_addV (a : Vulnerabilities) : addV zeroV a = a := by
  cases a
  simp [addV, zeroV]

theorem addV_assoc (a b c : Vulnerabilities) :
    addV (addV a b) c = addV a (addV b c) := by
  cases a
  cases b
  cases c
  simp [addV, Nat.add_assoc]

theorem totalV_add (a b : Vulnerabilities) :
    totalV (addV a b) = totalV a + totalV b := by
  cases a
  cases b
  simp [addV, totalV]
  omega

theorem bump_add (v : Vulnerabilities) (o : Option Severity) :
    bump v o = addV v (bump zeroV o) := by
  cases v with
  | mk c h m l =>
    cases o with
    | none => simp [bump, addV, zeroV]
    | some sev => cases sev <;> simp [bump, addV, zeroV]

theorem tallyStep_add (v : Vulnerabilities) (r : Result) :
    tallyStep v r = addV v (tallyStep zeroV r) :=
  bump_add v (classifyMessage r.message.text)

theorem foldl_tallyStep (rs : List Result) :
    ∀ v : Vulnerabilities, rs.foldl tallyStep v = addV v (tallyResults rs) := by
  induction rs with
  | nil =>
    intro v
    simp [tallyResults, addV_zero]
  | cons r rs ih =>
    intro v
    have h1 : (r :: rs).foldl tallyStep v = rs.foldl tallyStep (tallyStep v r) := rfl
    have h2 : tallyResults (r :: rs) = rs.foldl tallyStep (tallyStep zeroV r) := rfl
    rw [h1, ih, h2, ih, tallyStep_add v r, addV_assoc]

theorem tally_cons (r : Result) (rs : List Result) :
    tallyResults (r :: rs) = addV (tallyStep zeroV r) (tallyResults rs) := by
  have h : tallyResults (r :: rs) = rs.foldl tallyStep (tallyStep zeroV r) := rfl
  rw [h, foldl_tallyStep]

theorem classify_cases (text : String) :
    classifyMessage text = none ∨
    classifyMessage text = some Severity.low ∨
    classifyMessage text = some Severity.medium ∨
    classifyMessage text = some Severity.high ∨
    classifyMessage text = some Severity.critical := by
  by_cases h1 : containsSub text ": LOW" = true
  · simp [classifyMessage, h1]
  · by_cases h2 : containsSub text ": MEDIUM" = true
    · simp [classifyMessage, h1, h2]
    · by_cases h3 : containsSub text ": HIGH" = true
      · simp [classifyMessage, h1, h2, h3]
      · by_cases h4 : containsSub text ": CRITICAL" = true
        · simp [classifyMessage, h1, h2, h3, h4]
        · simp [classifyMessage, h1, h2, h3, h4]

theorem tally_counts (rs : List Result) :
    tallyResults rs =
      ⟨countSev Severity.critical rs, countSev Severity.high rs,
       countSev Severity.medium rs, countSev Severity.low rs⟩ := by
  induction rs with
  | nil => simp [tallyResults, countSev, zeroV]
  | cons r rs ih =>
    rw [tally_cons, ih]
    rcases classify_cases r.message.text with h | h | h | h | h <;>
      simp [countSev, tallyStep, bump, h, addV, zeroV, List.filter_cons,
        Vulnerabilities.mk.injEq] <;> omega


/-! ### The run model -/

theorem stepBoth_eq (p : Vulnerabilities × Vulnerabilities) (r : Result) :
    stepBoth p r = (tallyStep p.1 r, tallyStep p.2 r) := by
  rcases p with ⟨c, f⟩
  rcases classify_cases r.message.text with h | h | h | h | h <;>
    simp [stepBoth, tallyStep, bump, h]

theorem foldl_stepBoth (rs : List Result) :
    ∀ c f : Vulnerabilities,
      rs.foldl stepBoth (c, f) = (rs.foldl tallyStep c, rs.foldl tallyStep f) := by
  induction rs with
  | nil =>
    intro c f
    rfl
  | cons r rs ih =>
    intro c f
    have h1 : (r :: rs).foldl stepBoth (c, f) = rs.foldl stepBoth (stepBoth (c, f) r) := rfl
    rw [h1, stepBoth_eq]
    exact ih (tallyStep c r) (tallyStep f r)

theorem tallyBoth_eq (fleet : Vulnerabilities) (rs : List Result) :
    tallyBoth fleet rs = (tallyResults rs, addV fleet (tallyResults rs)) := by
  have h1 : tallyBoth fleet rs = rs.foldl stepBoth (zeroV, fleet) := rfl
  simp [h1, foldl_stepBoth, foldl_tallyStep, zero_addV]

theorem runTasks_spec (ts : List ScanOutcome) :
    ∀ (f : Vulnerabilities) (cs : List Vulnerabilities) (ff : Vulnerabilities),
      runTasks f ts = some (cs, ff) →
      cs.length = ts.length ∧ ff = addV f (sumV cs) := by
  induction ts with
  | nil =>
    intro f cs ff h
    simp only [runTasks, Option.some.injEq, Prod.mk.injEq] at h
    obtain ⟨hcs, hff⟩ := h
    subst hcs
    subst hff
    simp [sumV, addV_zero]
  | cons t ts ih =>
    intro f cs ff h
    cases t with
    | scanError => simp [runTasks] at h
    | readError => simp [runTasks] at h
    | decodeError => simp [runTasks] at h
    | ok rep =>
      cases hr : rep.runs with
      | nil => simp [runTasks, hr] at h
      | cons r0 rest =>
        simp only [runTasks, hr, tallyBoth_eq] at h
        cases h2 : runTasks (addV f (tallyResults r0.results)) ts with
        | none => rw [h2] at h; simp at h
        | some p =>
          rcases p with ⟨cs2, ff2⟩
          rw [h2] at h
          simp only [Option.some.injEq, Prod.mk.injEq] at h
          obtain ⟨hcs, hff⟩ := h
          obtain ⟨hlen, hfleet⟩ := ih _ _ _ h2
          subst hcs
          subst hff
          constructor
          · simp [hlen]
          · rw [hfleet]
            have h3 : sumV (tallyResults r0.results :: cs2) =
                addV (tallyResults r0.results) (sumV cs2) := rfl
            rw [h3, addV_assoc]

theorem runTasks_err (ts : List ScanOutcome) :
    ∀ f : Vulnerabilities,
      (∃ t ∈ ts, isErrOutcome t = true) → runTasks f ts = none := by
  induction ts with
  | nil =>
    intro f h
    simp at h
  | cons t ts ih =>
    intro f h
    obtain ⟨u, hu, herr⟩ := h
    rcases List.mem_cons.mp hu with h1 | h1
    · subst h1
      cases u with
      | scanError => rfl
      | readError => rfl
      | decodeError => rfl
      | ok rep => simp [isErrOutcome] at herr
    · cases t with
      | scanError => rfl
      | readError => rfl
      | decodeError => rfl
      | ok rep =>
        cases hr : rep.runs with
        | nil => simp [runTasks, hr]
        | cons r0 rest =>
          simp only [runTasks, hr, tallyBoth_eq]
          have h2 := ih (addV f (tallyResults r0.results)) ⟨u, h1, herr⟩
          simp [h2]

/-! ### Deduplication -/

theorem mem_dedupeGo (xs : List String) :
    ∀ (seen : List String) (a : String),
      a ∈ dedupeGo seen xs ↔ a ∈ xs ∧ a ∉ seen := by
  induction xs with
  | nil =>
    intro seen a
    simp [dedupeGo]
  | cons x xs ih =>
    intro seen a
    by_cases hx : x ∈ seen
    · simp only [dedupeGo, if_pos hx, ih, List.mem_cons]
      constructor
      · rintro ⟨h1, h2⟩
        exact ⟨Or.inr h1, h2⟩
      · rintro ⟨h1 | h1, h2⟩
        · subst h1
          exact absurd hx h2
        · exact ⟨h1, h2⟩
    · simp only [dedupeGo, if_neg hx, List.mem_cons, ih]
      constructor
      · rintro (h1 | ⟨h1, h2⟩)
        · subst h1
          exact ⟨Or.inl rfl, hx⟩
        · refine ⟨Or.inr h1, ?_⟩
          intro hs
          exact h2 (Or.inr hs)
      · rintro ⟨h1 | h1, h2⟩
        · subst h1
          exact Or.inl rfl
        · by_cases hax : a = x
          · subst hax
            exact Or.inl rfl
          · refine Or.inr ⟨h1, ?_⟩
            rintro (h3 | h3)
            · exact hax h3
            · exact h2 h3

theorem sublist_dedupeGo (xs : List String) :
    ∀ seen : List String, (dedupeGo seen xs).Sublist xs := by
  induction xs with
  | nil =>
    intro seen
    simp [dedupeGo]
  | cons x xs ih =>
    intro seen
    by_cases hx : x ∈ seen
    · simp only [dedupeGo, if_pos hx]
      exact (ih seen).cons x
    · simp only [dedupeGo, if_neg hx]
      exact (ih (x :: seen)).cons₂ x

theorem nodup_dedupeGo (xs : List String) :
    ∀ seen : List String, (dedupeGo seen xs).Nodup := by
  induction xs with
  | nil =>
    intro seen
    simp [dedupeGo]
  | cons x xs ih =>
    intro seen
    by_cases hx : x ∈ seen
    · simp only [dedupeGo, if_pos hx]
      exact ih seen
    · simp only [dedupeGo, if_neg hx]
      refine List.nodup_cons.mpr ⟨?_, ih (x :: seen)⟩
      intro hmem
      have h := (mem_dedupeGo xs (x :: seen) x).mp hmem
      exact h.2 (List.mem_cons_self x seen)

theorem dedupeGo_of_nodup (xs : List String) :
    ∀ seen : List String, xs.Nodup → (∀ a ∈ xs, a ∉ seen) →
      dedupeGo seen xs = xs := by
  induction xs with
  | nil =>
    intro seen _ _
    rfl
  | cons x xs ih =>
    intro seen hnd hdisj
    have hx : x ∉ seen := hdisj x (List.mem_cons_self x xs)
    simp only [dedupeGo, if_neg hx]
    have hnd2 := List.nodup_cons.mp hnd
    refine congrArg (List.cons x) (ih (x :: seen) hnd2.2 ?_)
    intro a ha hs
    rcases List.mem_cons.mp hs with h1 | h1
    · subst h1
      exact hnd2.1 ha
    · exact hdisj a (List.mem_cons_of_mem x ha) h1

theorem dedupeGo_congr (xs : List String) :
    ∀ s1 s2 : List String, (∀ a, a ∈ s1 ↔ a ∈ s2) →
      dedupeGo s1 xs = dedupeGo s2 xs := by
  induction xs with
  | nil =>
    intro s1 s2 _
    rfl
  | cons x xs ih =>
    intro s1 s2 hiff
    by_cases hx : x ∈ s1
    · have hx2 : x ∈ s2 := (hiff x).mp hx
      simp only [dedupeGo, if_pos hx, if_pos hx2]
      exact ih s1 s2 hiff
    · have hx2 : x ∉ s2 := fun h => hx ((hiff x).mpr h)
      simp only [dedupeGo, if_neg hx, if_neg hx2]
      refine congrArg (List.cons x) (ih (x :: s1) (x :: s2) ?_)
      intro a
      simp only [List.mem_cons]
      exact or_congr Iff.rfl (hiff a)

theorem dedupeGo_filter (xs : List String) :
    ∀ (seen : List String) (x : String),
      dedupeGo (x :: seen) xs = dedupeGo seen (xs.filter (fun y => !(y == x))) := by
  induction xs with
  | nil =>
    intro seen x
    rfl
  | cons y xs ih =>
    intro seen x
    by_cases hyx : y = x
    · subst hyx
      have h1 : y ∈ y :: seen := List.mem_cons_self y seen
      have h2 : List.filter (fun z => !(z == y)) (y :: xs) =
          List.filter (fun z => !(z == y)) xs := by
        simp [List.filter_cons]
      simp only [dedupeGo, if_pos h1, h2, ih]
    · have hne : (!(y == x)) = true := by
        simp [hyx]
      by_cases hy : y ∈ seen
      · have h1 : y ∈ x :: seen := List.mem_cons_of_mem x hy
        simp only [dedupeGo, if_pos h1, List.filter_cons, hne, if_true,
          if_pos hy, ih]
      · have h1 : y ∉ x :: seen := by
          intro h
          rcases List.mem_cons.mp h with h2 | h2
          · exact hyx h2
          · exact hy h2
        simp only [dedupeGo, if_neg h1, List.filter_cons, hne, if_true, if_neg hy]
        refine congrArg (List.cons y) ?_
        have h2 : dedupeGo (y :: x :: seen) xs = dedupeGo (x :: y :: seen) xs := by
          refine dedupeGo_congr xs _ _ ?_
          intro a
          simp only [List.mem_cons]
          tauto
        rw [h2, ih (y :: seen) x]

theorem mem_dedupe (xs : List String) (a : String) :
    a ∈ dedupe xs ↔ a ∈ xs := by
  have h := mem_dedupeGo xs [] a
  simpa [dedupe] using h

/-! ### Concrete inputs used by counterexamples and witnesses -/

/-- A one-entry rule catalog whose entry carries severity `HIGH`. -/
def demoRules : List Rule := [⟨"CVE-2023-1", ⟨"HIGH"⟩⟩]

/-- A result matched by `demoRules` whose message text names MEDIUM. -/
def demoResult : Result := ⟨"CVE-2023-1", ⟨"severity: MEDIUM"⟩⟩

/-- A result whose message text contains none of the four tokens. -/
def noTokenResult : Result := ⟨"CVE-2023-2", ⟨"no recognised keyword here"⟩⟩

/-- A well-formed report whose single run holds one unresolvable result. -/
def noTokenReport : SarifReport :=
  ⟨"2.1.0", "sarif-schema", [⟨⟨⟨[]⟩⟩, [noTokenResult]⟩]⟩

/-- A run holding one result whose message classifies as HIGH. -/
def highResultRun : Run :=
  ⟨⟨⟨[]⟩⟩, [⟨"CVE-2023-3", ⟨"vulnerability severity: HIGH"⟩⟩]⟩

/-- A run holding one result whose message classifies as LOW. -/
def lowRun : Run := ⟨⟨⟨[]⟩⟩, [⟨"CVE-2023-4", ⟨"x: LOW"⟩⟩]⟩

/-- A report with one run and one HIGH finding. -/
def okReport : SarifReport := ⟨"2.1.0", "sarif-schema", [highResultRun]⟩

/-- Five dispatched tasks of which the third hits a scanner-invocation
failure, as in the spec's fail-fast test scenario. -/
def fiveTasks : List ScanOutcome :=
  [ScanOutcome.ok okReport, ScanOutcome.ok okReport, ScanOutcome.scanError,
   ScanOutcome.ok okReport, ScanOutcome.ok okReport]

/-! ### Claims -/

/-- C1, counterexample: severity classification in the code is not the
claimed two-stage resolution.  On a result whose rule-catalog entry
(matched by identifier) carries severity `HIGH` while the message text
says `: MEDIUM`, the claimed resolution yields High, but `main.go`
counts the result in the Medium bucket and leaves the High bucket at
zero — the message text wins and the catalog is never consulted. -/
theorem catalog_does_not_override_message :
    specResolve demoRules demoResult = Severity.high ∧
    classifyMessage "severity: MEDIUM" = some Severity.medium ∧
    (tallyResults [demoResult]).high = 0 ∧
    (tallyResults [demoResult]).medium = 1 := by
  refine ⟨by decide, by decide, by decide, by decide⟩

/-- C1, amended: in the current source severity classification is
single-stage.  Each result's bucket is a function of its message text
alone (the per-bucket counts are exactly the counts of results whose
message classifies to that token; replacing the rule catalog of the
consulted run never changes the outcome), and a result whose message
contains none of the four colon-delimited tokens resolves to no bucket
at all — it is dropped, not classified Unspecified. -/
theorem classification_single_stage_message_only :
    (∀ rs : List Result,
      tallyResults rs =
        ⟨countSev Severity.critical rs, countSev Severity.high rs,
         countSev Severity.medium rs, countSev Severity.low rs⟩) ∧
    (∀ (v s : String) (r0 : Run) (rules : List Rule),
      classifyReport ⟨v, s, [{ r0 with tool := ⟨⟨rules⟩⟩ }]⟩ =
        classifyReport ⟨v, s, [r0]⟩) ∧
    (∀ text : String,
      (classifyMessage text).isNone =
        (!containsSub text ": LOW" && !containsSub text ": MEDIUM" &&
         !containsSub text ": HIGH" && !containsSub text ": CRITICAL")) := by
  refine ⟨tally_counts, ?_, ?_⟩
  · intro v s r0 rules
    cases r0
    rfl
  · intro text
    by_cases h1 : containsSub text ": LOW" = true
    · simp [classifyMessage, h1]
    · by_cases h2 : containsSub text ": MEDIUM" = true
      · simp [classifyMessage, h1, h2]
      · by_cases h3 : containsSub text ": HIGH" = true
        · simp [classifyMessage, h1, h2, h3]
        · by_cases h4 : containsSub text ": CRITICAL" = true
          · simp [classifyMessage, h1, h2, h3, h4]
          · simp [classifyMessage, h1, h2, h3, h4]

/-- C2, counterexample: count conservation fails.  A decoded report
whose single run holds exactly one raw result with no severity token
classifies without error, yet every bucket of the resulting counts is
zero: the sum of the buckets is 0 while the number of raw results
is 1 — the unresolvable result is dropped, not counted. -/
theorem conservation_fails_on_unresolved :
    classifyReport noTokenReport = some zeroV ∧
    totalV zeroV = 0 ∧
    noTokenReport.runs.map (fun ru => ru.results.length) = [1] := by
  refine ⟨by decide, by decide, by decide⟩

/-- C2, amended: the sum of all severity bucket counts equals the
number of raw results whose message text contains at least one of the
four severity tokens; results that resolve to no token are dropped, so
the sum can be strictly smaller than the number of raw results. -/
theorem total_counts_resolved_results_only (rs : List Result) :
    totalV (tallyResults rs) =
      (rs.filter (fun r => (classifyMessage r.message.text).isSome)).length := by
  induction rs with
  | nil => simp [tallyResults, totalV, zeroV]
  | cons r rs ih =>
    rw [tally_cons, totalV_add, ih]
    rcases classify_cases r.message.text with h | h | h | h | h <;>
      simp [tallyStep, bump, h, totalV, zeroV, List.filter_cons] <;> omega

/-- C3: the fleet-total invariant does not survive the source's
unsynchronized aggregation.  Two tasks, each counting one LOW finding,
bump their own container records and then perform the read and write of
the shared `lowVuln += 1` with no mutex.  Both schedules below are
interleavings of the same two task programs; the sequential one ends
with the fleet counter equal to the sum of the container counters, but
in the racy one (both tasks read the fleet counter before either
writes) the rendered run has container counts 1 and 1 with a fleet
counter of 1: the fleet total is not the element-wise sum of the
per-container counts, because one shared-counter update is lost while
both per-container updates survive. -/
theorem fleet_total_violated_by_lost_update :
    projAgg seqAggSched false = aggProgram ∧
    projAgg seqAggSched true = aggProgram ∧
    projAgg racyAggSched false = aggProgram ∧
    projAgg racyAggSched true = aggProgram ∧
    (execAgg seqAggSched).fleet =
      (execAgg seqAggSched).cont1 + (execAgg seqAggSched).cont2 ∧
    (execAgg racyAggSched).cont1 = 1 ∧
    (execAgg racyAggSched).cont2 = 1 ∧
    (execAgg racyAggSched).fleet = 1 ∧
    (((execAgg racyAggSched).fleet ==
      (execAgg racyAggSched).cont1 + (execAgg racyAggSched).cont2) : Bool) = false := by
  refine ⟨by decide, by decide, by decide, by decide, by decide,
    by decide, by decide, by decide, by decide⟩

/-- C4: fail-fast propagation.  If any dispatched task hits a
scanner-invocation, report-read or report-decode failure the whole run
yields no summary at all; and any summary that is produced covers every
dispatched container — never a partial one. -/
theorem fail_fast_no_partial_summary :
    (∀ ts : List ScanOutcome,
      (∃ t ∈ ts, isErrOutcome t = true) → runFleet ts = none) ∧
    (∀ (ts : List ScanOutcome) (s : FleetSummary),
      runFleet ts = some s → s.containers.length = ts.length) := by
  constructor
  · intro ts h
    unfold runFleet
    rw [runTasks_err ts zeroV h]
  · intro ts s h
    unfold runFleet at h
    cases h2 : runTasks zeroV ts with
    | none =>
      rw [h2] at h
      cases h
    | some p =>
      rcases p with ⟨cs, ff⟩
      rw [h2] at h
      simp only [Option.some.injEq] at h
      subst h
      exact (runTasks_spec ts zeroV cs ff h2).1

/-- C4, witness: of five dispatched scans the third fails, and the run
yields no summary; a one-task run that succeeds covers its container. -/
theorem fail_fast_no_partial_summary_witness :
    runFleet fiveTasks = none ∧
    (FleetSummary.mk [⟨0, 1, 0, 0⟩] ⟨0, 1, 0, 0⟩).containers.length =
      [ScanOutcome.ok okReport].length :=
  ⟨fail_fast_no_partial_summary.1 fiveTasks
      ⟨ScanOutcome.scanError, by decide, by decide⟩,
   fail_fast_no_partial_summary.2 [ScanOutcome.ok okReport]
      (FleetSummary.mk [⟨0, 1, 0, 0⟩] ⟨0, 1, 0, 0⟩) (by decide)⟩

/-- C5: the source increments the shared fleet counters from concurrent
goroutines with no mutual exclusion.  Modelling one `counter += 1` as
the read and write it is, both schedules below are interleavings of two
tasks that each count one LOW finding, yet the sequential schedule ends
with the counter at 2 and the racy schedule (both tasks read before
either writes) ends at 1: an update is lost, so concurrent and
sequential runs are not guaranteed to agree. -/
theorem unsynchronized_increment_loses_update :
    projTask seqSched false = taskProgram ∧
    projTask seqSched true = taskProgram ∧
    projTask racySched false = taskProgram ∧
    projTask racySched true = taskProgram ∧
    (execSched seqSched).shared = 2 ∧
    (execSched racySched).shared = 1 := by
  refine ⟨by decide, by decide, by decide, by decide, by decide, by decide⟩

/-- C6: the deduplicator returns the distinct image references of the
inventory, in first-seen order, and is idempotent: its output has no
duplicates, is a subsequence of the input (so relative order is the
input's), carries exactly the input's set of images, is a fixed point
of deduplication, and satisfies the first-seen recurrence — the head is
kept and all its later duplicates are discarded. -/
theorem dedupe_distinct_first_seen_idempotent :
    ∀ (xs : List String) (x : String),
      (dedupe xs).Nodup ∧
      (dedupe xs).Sublist xs ∧
      (dedupe xs).toFinset = xs.toFinset ∧
      dedupe (dedupe xs) = dedupe xs ∧
      dedupe (x :: xs) = x :: dedupe (xs.filter (fun y => !(y == x))) := by
  intro xs x
  refine ⟨nodup_dedupeGo xs [], sublist_dedupeGo xs [], ?_, ?_, ?_⟩
  · ext a
    simp [List.mem_toFinset, mem_dedupe]
  · refine dedupeGo_of_nodup (dedupe xs) [] (nodup_dedupeGo xs []) ?_
    intro a _ ha
    exact (List.not_mem_nil a) ha
  · have h1 : dedupe (x :: xs) = x :: dedupeGo [x] xs := by
      simp [dedupe, dedupeGo]
    rw [h1]
    exact congrArg (List.cons x) (dedupeGo_filter xs [] x)

/-- C7: a report that decodes with at least one run whose results list
is empty classifies without error and yields the all-zero counters. -/
theorem empty_results_zero_counts :
    ∀ (rep : SarifReport) (r0 : Run) (rest : List Run),
      rep.runs = r0 :: rest → r0.results = [] →
      classifyReport rep = some zeroV := by
  intro rep r0 rest h1 h2
  simp only [classifyReport, h1, h2]
  rfl

/-- C7, witness: a concrete zero-result report yields zero counters. -/
theorem empty_results_zero_counts_witness :
    classifyReport (SarifReport.mk "2.1.0" "sarif-schema" [Run.mk ⟨⟨[]⟩⟩ []]) =
      some zeroV :=
  empty_results_zero_counts
    (SarifReport.mk "2.1.0" "sarif-schema" [Run.mk ⟨⟨[]⟩⟩ []])
    (Run.mk ⟨⟨[]⟩⟩ []) [] rfl rfl

/-- C8: classification reads only the first element of the `runs`
list — replacing everything after the first run never changes the
outcome — and a structurally valid report with an empty `runs` list
makes the task fail on the out-of-range indexing of `Runs[0]` instead
of yielding zero counts. -/
theorem only_first_run_consulted :
    (∀ rep : SarifReport, rep.runs = [] → classifyReport rep = none) ∧
    (∀ (v s : String) (r0 : Run) (rest rest2 : List Run),
      classifyReport ⟨v, s, r0 :: rest⟩ = classifyReport ⟨v, s, r0 :: rest2⟩) := by
  constructor
  · intro rep h
    unfold classifyReport
    rw [h]
  · intro v s r0 rest rest2
    rfl

/-- C8, witness: a report with an empty `runs` list fails, and a LOW
finding sitting in a second run is not counted. -/
theorem only_first_run_consulted_witness :
    classifyReport (SarifReport.mk "2.1.0" "sarif-schema" []) = none ∧
    classifyReport (SarifReport.mk "2.1.0" "s" [highResultRun, lowRun]) =
      classifyReport (SarifReport.mk "2.1.0" "s" [highResultRun]) :=
  ⟨only_first_run_consulted.1 (SarifReport.mk "2.1.0" "sarif-schema" []) rfl,
   only_first_run_consulted.2 "2.1.0" "s" highResultRun [lowRun] []⟩

/-- C9: the message tokens are tested in the fixed order `: LOW`,
`: MEDIUM`, `: HIGH`, `: CRITICAL`, and the first token present in that
testing order names the bucket, regardless of any later tokens also
present in the text. -/
theorem message_token_testing_order :
    ∀ text : String,
      (containsSub text ": LOW" = true → classifyMessage text = some Severity.low) ∧
      (containsSub text ": LOW" = false → containsSub text ": MEDIUM" = true →
        classifyMessage text = some Severity.medium) ∧
      (containsSub text ": LOW" = false → containsSub text ": MEDIUM" = false →
        containsSub text ": HIGH" = true → classifyMessage text = some Severity.high) ∧
      (containsSub text ": LOW" = false → containsSub text ": MEDIUM" = false →
        containsSub text ": HIGH" = false → containsSub text ": CRITICAL" = true →
        classifyMessage text = some Severity.critical) := by
  intro text
  refine ⟨?_, ?_, ?_, ?_⟩
  · intro h1
    simp [classifyMessage, h1]
  · intro h1 h2
    simp [classifyMessage, h1, h2]
  · intro h1 h2 h3
    simp [classifyMessage, h1, h2, h3]
  · intro h1 h2 h3 h4
    simp [classifyMessage, h1, h2, h3, h4]

/-- C9, witness: a message containing both `: LOW` and `: CRITICAL`
counts as Low, because LOW is tested first. -/
theorem message_token_testing_order_witness :
    classifyMessage "CVE-42, severity: LOW (was: CRITICAL)" = some Severity.low :=
  (message_token_testing_order "CVE-42, severity: LOW (was: CRITICAL)").1 (by decide)

/-- C10: the image-to-filename sanitisation is not injective: the two
distinct image references `img:v1` and `img_v1` map to the same report
filename `img_v1.sarif.json`. -/
theorem report_filename_not_injective :
    reportFilename "img:v1" = reportFilename "img_v1" ∧
    reportFilename "img:v1" = "img_v1.sarif.json" ∧
    (("img:v1" == "img_v1") : Bool) = false := by
  refine ⟨by decide, by decide, by decide⟩

end Skout
